import Mathlib

/-!
Verification development for the writing-assistant backend.

The definitions below are a shallow embedding of the TypeScript sources:
  * `backend/src/utils/textUtils.ts`   — text normalisation helpers
  * `backend/src/utils/hash.ts`        — SHA-256-based cache-key fingerprint
  * `backend/src/services/cache.ts`    — the in-memory TTL cache
  * `backend/src/services/llm.ts`      — prompt building and the model-call
                                         boundary (the external call itself is a
                                         parameter of the embedding)
  * `backend/src/routes/predict.ts`    — the /predict handler
  * `backend/src/routes/next.ts`       — the /next handler
  * `CLAUDE_CODE_IMPROVEMENTS.md`      — `detectPosition` / `detectStage`
    (the classifier utilities, given there verbatim as code)

JavaScript strings are modelled as Lean `String` (a structure wrapping
`List Char`); machine time `Date.now()` is an explicit `Int` parameter;
the Anthropic client call is an explicit outcome parameter (it can throw,
return no content block, return a non-text block, or return text).
-/

set_option maxRecDepth 16000

namespace WA

/-! ### Writing stages, positions, modes (llm.ts / predict.ts) -/

inductive Stage where
  | start
  | establish
  | continue_
deriving DecidableEq, Repr

inductive Position where
  | opening
  | middle
  | closing
deriving DecidableEq, Repr

/-! ### JavaScript string primitives

`/\s/` in JavaScript regexes matches the characters below (ECMA-262
WhiteSpace and LineTerminator, including the Unicode space separators);
`String.prototype.trim` uses the same set. -/

def isJsWs (c : Char) : Bool :=
  c = ' ' || c = '\t' || c = '\n' || c = '\u000B' || c = '\u000C' || c = '\r' ||
  c = '\u00A0' || c = '\u1680' ||
  ('\u2000' ≤ c && c ≤ '\u200A') ||
  c = '\u2028' || c = '\u2029' || c = '\u202F' || c = '\u205F' ||
  c = '\u3000' || c = '\uFEFF'

/-- Models `s.trim()` on the character list: drop whitespace from both ends. -/
def jsTrim (l : List Char) : List Char :=
  ((l.dropWhile isJsWs).reverse.dropWhile isJsWs).reverse

/-- Accumulator-based splitter: `wordsAux acc l` walks `l`, `acc` holding the
(reversed) current word.  `wordsOf` below models
`split(/\s+/).filter(Boolean)` applied to a trimmed string: the list of
maximal non-whitespace runs, empty tokens dropped. -/
def wordsAux : Option (List Char) → List Char → List (List Char)
  | none, [] => []
  | some w, [] => [w.reverse]
  | none, c :: rest =>
    if isJsWs c then wordsAux none rest else wordsAux (some [c]) rest
  | some w, c :: rest =>
    if isJsWs c then w.reverse :: wordsAux none rest
    else wordsAux (some (c :: w)) rest

def wordsOf (l : List Char) : List (List Char) :=
  wordsAux none l

/-- Models `s.trim().split(/\s+/).filter(Boolean).length` — the word count
used by both classifiers. -/
def countWords (s : String) : Nat :=
  (wordsOf (jsTrim s.data)).length

/-! ### detectPosition / detectStage (CLAUDE_CODE_IMPROVEMENTS.md, Task 1) -/

def detectPosition (fullText : String) : Position :=
  let words := countWords fullText
  if words < 50 then .opening
  else if words < 300 then .middle
  else .closing

def detectStage (precedingText : String) : Stage :=
  let words := countWords precedingText
  if words = 0 then .start
  else if words < 20 then .establish
  else .continue_

/-! ### textUtils.ts -/

def MAX_PRECEDING_TEXT : Nat := 500

/-- Returns `text.slice(text.length - MAX_PRECEDING_TEXT)` when over the cap. -/
def truncatePrecedingText (text : String) : String :=
  if text.length ≤ MAX_PRECEDING_TEXT then text
  else ⟨text.data.drop (text.data.length - MAX_PRECEDING_TEXT)⟩

/-- Models `s.slice(-500)` (used in next.ts on `lastParagraph`): the last
`min 500 (length s)` characters. -/
def jsSliceTail500 (s : String) : String :=
  ⟨s.data.drop (s.data.length - min 500 s.data.length)⟩

def isTrailPunct (c : Char) : Bool :=
  c = '.' || c = ',' || c = '!' || c = '?'

/-- Models `raw.trim().replace(/[.,!?]+$/, "")`. -/
def postProcessSuggestion (raw : String) : String :=
  let t := jsTrim raw.data
  ⟨(t.reverse.dropWhile isTrailPunct).reverse⟩

/-- Models `s.trim().replace(/[.,!?]$/, "")` — the single-character variant
used on the parsed `phrase` field in `getNextSuggestion`. -/
def stripOneTrailPunct (s : String) : String :=
  let t := jsTrim s.data
  match t.reverse with
  | [] => ⟨t⟩
  | c :: rest => if isTrailPunct c then ⟨rest.reverse⟩ else ⟨t⟩

/-! ### cache.ts — the in-memory TTL store

One process-wide `Map<string, CacheEntry<unknown>>`; keys are namespaced by
prefix (`session:`, `predict:`, `next:`), and each prefix only ever holds one
shape of value, so the `unknown` payload is modelled as a small sum type. -/

structure SessionContext where
  outline : String
  style : String
  tone : String
  /-- Optional in the source (`thesis?: string`); absent is modelled `""`,
  matching the spec (empty string means not available). -/
  thesis : String
deriving DecidableEq, Repr

inductive CacheVal where
  | str (s : String)
  | ctx (c : SessionContext)
  | pair (phrase angle : String)
deriving DecidableEq, Repr

structure CacheEntry where
  value : CacheVal
  expiresAt : Int
deriving DecidableEq, Repr

abbrev Store : Type := List (String × CacheEntry)

def TTL.SESSION : Int := 60 * 60 * 24

def TTL.PREDICTION : Int := 60 * 5

/-- Models `set(key, value, ttlSeconds)`: overwrite, `expiresAt = now + ttl*1000`. -/
def InMemoryCache.set (key : String) (value : CacheVal) (ttlSeconds : Int)
    (now : Int) (s : Store) : Store :=
  (key, ⟨value, now + ttlSeconds * 1000⟩) :: s.filter (fun p => ¬ (p.1 = key))

/-- Models `get(key)`: `null` if absent; if `Date.now() > expiresAt`, delete the
entry and return `null`; otherwise return the value.  The store threads
through explicitly (the read has a delete side effect). -/
def InMemoryCache.get (now : Int) (key : String) (s : Store) :
    Option CacheVal × Store :=
  match s.find? (fun p => p.1 = key) with
  | none => (none, s)
  | some e =>
    if now > e.2.expiresAt then
      (none, s.filter (fun p => ¬ (p.1 = key)))
    else
      (some e.2.value, s)

def InMemoryCache.delete (key : String) (s : Store) : Store :=
  s.filter (fun p => ¬ (p.1 = key))

/-! ### hash.ts — `hashKey`

Source: `createHash("sha256").update(parts.flatten("|")).digest("hex").slice(0, 16)`.
Node's `update` encodes the string as UTF-8.  SHA-256 (FIPS 180-4) is
implemented below on `Nat` with explicit reduction mod `2^32`. -/

/-- UTF-8 encoding of one character (code point) as a list of bytes. -/
def utf8Char (c : Char) : List Nat :=
  let n := c.toNat
  if n < 0x80 then [n]
  else if n < 0x800 then
    [0xC0 + n / 0x40, 0x80 + n % 0x40]
  else if n < 0x10000 then
    [0xE0 + n / 0x1000, 0x80 + n / 0x40 % 0x40, 0x80 + n % 0x40]
  else
    [0xF0 + n / 0x40000, 0x80 + n / 0x1000 % 0x40, 0x80 + n / 0x40 % 0x40,
     0x80 + n % 0x40]

def utf8Bytes (s : String) : List Nat :=
  (s.data.map utf8Char).flatten

def M32 : Nat := 4294967296

def add32 (a b : Nat) : Nat := (a + b) % M32

/-- Right rotation of a 32-bit word. -/
def rotr32 (x n : Nat) : Nat := ((x >>> n) ||| (x <<< (32 - n))) % M32

/-- Bitwise complement of a 32-bit word. -/
def not32 (x : Nat) : Nat := x ^^^ (M32 - 1)

def bigSigma0 (x : Nat) : Nat := rotr32 x 2 ^^^ rotr32 x 13 ^^^ rotr32 x 22

def bigSigma1 (x : Nat) : Nat := rotr32 x 6 ^^^ rotr32 x 11 ^^^ rotr32 x 25

def smallSigma0 (x : Nat) : Nat := rotr32 x 7 ^^^ rotr32 x 18 ^^^ (x >>> 3)

def smallSigma1 (x : Nat) : Nat := rotr32 x 17 ^^^ rotr32 x 19 ^^^ (x >>> 10)

def shaCh (e f g : Nat) : Nat := (e &&& f) ^^^ (not32 e &&& g)

def shaMaj (a b c : Nat) : Nat := (a &&& b) ^^^ (a &&& c) ^^^ (b &&& c)

/-- Round constants of SHA-256 (FIPS 180-4 sect. 4.2.2), in decimal. -/
def shaK : List Nat :=
  [1116352408, 1899447441, 3049323471, 3921009573,
   961987163, 1508970993, 2453635748, 2870763221,
   3624381080, 310598401, 607225278, 1426881987,
   1925078388, 2162078206, 2614888103, 3248222580,
   3835390401, 4022224774, 264347078, 604807628,
   770255983, 1249150122, 1555081692, 1996064986,
   2554220882, 2821834349, 2952996808, 3210313671,
   3336571891, 3584528711, 113926993, 338241895,
   666307205, 773529912, 1294757372, 1396182291,
   1695183700, 1986661051, 2177026350, 2456956037,
   2730485921, 2820302411, 3259730800, 3345764771,
   3516065817, 3600352804, 4094571909, 275423344,
   430227734, 506948616, 659060556, 883997877,
   958139571, 1322822218, 1537002063, 1747873779,
   1955562222, 2024104815, 2227730452, 2361852424,
   2428436474, 2756734187, 3204031479, 3329325298]

/-- Initial hash state of SHA-256 (FIPS 180-4 sect. 5.3.3), in decimal. -/
def shaH0 : List Nat :=
  [1779033703, 3144134277, 1013904242, 2773480762,
   1359893119, 2600822924, 528734635, 1541459225]

/-- Appends the SHA-256 padding: `0x80`, zeros to 56 mod 64, then the bit
length as 8 big-endian bytes. -/
def shaPad (msg : List Nat) : List Nat :=
  let l := msg.length
  let zeros := (119 - l % 64) % 64
  msg ++ [0x80] ++ List.replicate zeros 0 ++
    (List.range 8).map (fun i => (8 * l) >>> (8 * (7 - i)) % 256)

/-- Splits the padded message into 16-word (big-endian) blocks. -/
def shaBlocks (padded : List Nat) : List (List Nat) :=
  (List.range (padded.length / 64)).map (fun b =>
    (List.range 16).map (fun i =>
      let at4 := fun j => padded.getD (64 * b + 4 * i + j) 0
      at4 0 <<< 24 + at4 1 <<< 16 + at4 2 <<< 8 + at4 3))

/-- Extends the 16 message words by `k` further schedule words. -/
def shaExtend : List Nat → Nat → List Nat
  | w, 0 => w
  | w, k + 1 =>
    let n := w.length
    let word := add32
      (add32 (w.getD (n - 16) 0) (smallSigma0 (w.getD (n - 15) 0)))
      (add32 (w.getD (n - 7) 0) (smallSigma1 (w.getD (n - 2) 0)))
    shaExtend (w ++ [word]) k

/-- Performs one compression round on the 8-word state. -/
def shaRound (st : List Nat) (kw : Nat) : List Nat :=
  match st with
  | [a, b, c, d, e, f, g, h] =>
    let t1 := add32 (add32 h (bigSigma1 e)) (add32 (shaCh e f g) kw)
    let t2 := add32 (bigSigma0 a) (shaMaj a b c)
    [add32 t1 t2, a, b, c, add32 d t1, e, f, g]
  | other => other

/-- Processes one 512-bit block. -/
def shaBlockStep (h : List Nat) (block : List Nat) : List Nat :=
  let w := shaExtend block 48
  let kw := shaK.zipWith add32 w
  let st := kw.foldl shaRound h
  h.zipWith add32 st

/-- Computes the SHA-256 digest of a byte list, as eight 32-bit words. -/
def sha256Words (msg : List Nat) : List Nat :=
  (shaBlocks (shaPad msg)).foldl shaBlockStep shaH0

def hexDigit (n : Nat) : Char :=
  if n < 10 then Char.ofNat (48 + n) else Char.ofNat (87 + n)

/-- Renders one 32-bit word as 8 lowercase hex characters. -/
def hexWord32 (w : Nat) : List Char :=
  (List.range 8).map (fun i => hexDigit ((w >>> (4 * (7 - i))) % 16))

/-- Computes the full lowercase-hex SHA-256 digest of a string (UTF-8). -/
def sha256Hex (s : String) : String :=
  ⟨((sha256Words (utf8Bytes s)).map hexWord32).flatten⟩

/-- Models `hashKey(...parts)` from hash.ts: join the parts with `"|"`,
SHA-256, hex digest, first 16 characters. -/
def hashKey (parts : List String) : String :=
  ⟨(sha256Hex (String.intercalate "|" parts)).data.take 16⟩


/-! ### llm.ts — prompt building and the model-call boundary

`client.messages.create` is external; one call happens per request, and its
outcome is a parameter of the embedding: the call can throw, return no
content block, return a non-text first block, or return text.  Every other
step of the service functions is modelled directly. -/

inductive LlmOutcome where
  | threw
  | noBlock
  | nonText
  | text (s : String)
deriving DecidableEq, Repr

structure PromptPair where
  system : String
  user : String
deriving DecidableEq, Repr

/-- Shared skeleton of the five bridge templates in `promptBuilder`: every
variant is `intro ⧺ outline/thesis/style/tone header ⧺ "Before generating…"
paragraph ⧺ tail`, with the header identical across variants (transcribed
from the template literals in llm.ts). -/
def mkBridgeSystem (intro outline style tone thesis tail : String) : String :=
  let thesisLine :=
    if thesis = "" then "" else "The article\x27s core argument: \"" ++ thesis ++ "\""
  intro ++
  "\n\nTheir piece is about: \"" ++ outline ++ "\"\n" ++
  (if thesisLine = "" then "" else "\n" ++ thesisLine) ++
  "\nStyle: " ++ style ++
  "\nTone: " ++ tone ++
  "\n\nBefore generating your suggestion, identify which specific part of the outline the writer is currently working on based on their preceding text. Use that section to guide your suggestion — not the outline in general.\n\n" ++
  tail

def continueUser (precedingText : String) : String :=
  "Continue this naturally: \"" ++ precedingText ++ "\""

/-- Models `promptBuilder` from llm.ts: the if-chain over stage and position
with the `continue`/`middle` template as the final (fallback) return. -/
def promptBuilder (outline style tone thesis precedingText : String)
    (stage : Stage) (position : Position) : PromptPair :=
  if stage = .start then
    { system := mkBridgeSystem
        "You are a writing assistant helping a writer who is staring at a blank page."
        outline style tone thesis
        ("Suggest the first 5-7 words of an opening sentence that:\n- Hooks the reader immediately\n- Feels natural in a " ++ tone ++ " voice\n- Sets up the premise described in the outline\n\nReturn ONLY the words. No punctuation at the end. No explanation. No preamble.\nIf you cannot generate a helpful suggestion, return an empty string.")
      user := "Give me the first words to start this piece." }
  else if stage = .establish then
    { system := mkBridgeSystem
        "You are a writing assistant helping a writer establish their opening."
        outline style tone thesis
        "Suggest the next 5-7 words that:\n- Feel like a natural extension of what they started\n- Stay consistent with their opening voice\n- Move the thought forward without completing it\n\nReturn ONLY the words. No punctuation at the end. No explanation. No preamble.\nIf the thought already feels complete, return an empty string."
      user := continueUser precedingText }
  else if position = .opening then
    { system := mkBridgeSystem
        "You are a writing assistant helping a writer build momentum in their opening paragraph."
        outline style tone thesis
        "Suggest the next 5-7 words that:\n- Maintain the voice and energy they\x27ve established\n- Help develop or support the opening premise\n- Bridge naturally to their next thought without finishing the sentence\n\nReturn ONLY the words. No punctuation at the end. No explanation. No preamble.\nIf the sentence already feels complete, return an empty string."
      user := continueUser precedingText }
  else if position = .closing then
    { system := mkBridgeSystem
        "You are a writing assistant helping a writer bring their piece to a close."
        outline style tone thesis
        "Suggest the next 5-7 words that:\n- Feel like the piece is moving toward resolution\n- Carry the same tone without introducing new ideas\n- Help the writer land the piece cleanly\n\nReturn ONLY the words. No punctuation at the end. No explanation. No preamble.\nIf the sentence already feels complete, return an empty string."
      user := continueUser precedingText }
  else
    { system := mkBridgeSystem
        "You are a writing assistant helping a writer maintain flow through the body of their piece."
        outline style tone thesis
        "Suggest the next 5-7 words that:\n- Keep the argument or narrative moving forward\n- Feel consistent with the tone and style already established\n- Act as a bridge — not a conclusion\n\nReturn ONLY the words. No punctuation at the end. No explanation. No preamble.\nIf the sentence already feels complete, return an empty string."
      user := continueUser precedingText }

def wordPrompt (precedingText : String) : PromptPair :=
  { system := "You are a word completion assistant.\nPredict the single next word the writer is most likely to type.\n\nRules:\n- Return ONLY one word, nothing else\n- No punctuation, no explanation\n- If the text ends mid-word, complete that word\n- If the text ends at a word boundary, predict the next word"
    user := "What is the next word? \"" ++ precedingText ++ "\"" }

/-- Models `getWordSuggestion`: any throw, missing block or non-text block
yields `""`; a text block is post-processed. -/
def getWordSuggestion (call : PromptPair → LlmOutcome) (precedingText : String) :
    String :=
  match call (wordPrompt precedingText) with
  | .text raw => postProcessSuggestion raw
  | _ => ""

/-- Models `getBridgeSuggestion`.  In the source `position` defaults to
`"middle"` and `stage` defaults to `"continue"`; the only caller
(predict.ts) passes `position` explicitly and never passes `stage`, so both
are explicit arguments here. -/
def getBridgeSuggestion (call : PromptPair → LlmOutcome) (precedingText : String)
    (context : SessionContext) (position : Position) (stage : Stage) : String :=
  match call (promptBuilder context.outline context.style context.tone
      context.thesis precedingText stage position) with
  | .text raw => postProcessSuggestion raw
  | _ => ""

/-! ### llm.ts — `getNextSuggestion` -/

/-- Result of `JSON.parse` on the brace-delimited slice, restricted to the
two fields the code reads; `none` models a parse throw (including a field
being present but not a string, which would make `.trim()` throw — both are
caught by the same `catch`). -/
structure ParsedNext where
  phrase : Option String
  angle : Option String
deriving DecidableEq, Repr

structure NextResult where
  phrase : String
  angle : String
deriving DecidableEq, Repr

def lbrace : Char := Char.ofNat 123

def rbrace : Char := Char.ofNat 125

/-- Models `text.indexOf(c)` for a single character. -/
def firstIdxOf (c : Char) (l : List Char) : Option Nat :=
  l.findIdx? (fun d => d = c)

/-- Models `text.lastIndexOf(c)` for a single character. -/
def lastIdxOf (c : Char) (l : List Char) : Option Nat :=
  match l.reverse.findIdx? (fun d => d = c) with
  | none => none
  | some i => some (l.length - 1 - i)

/-- System prompt of `getNextSuggestion`, transcribed from the template
literal (the literal braces of the JSON example are `lbrace`/`rbrace`). -/
def nextSystem (lastParagraph : String) (context : SessionContext)
    (currentSection : Option String) : String :=
  let currentSectionLine :=
    match currentSection with
    | some cs => "\nThe writer just finished working on this section of the outline:\n\"" ++ cs ++ "\"\n"
    | none => ""
  let afterLine :=
    match currentSection with
    | some cs => "\nBased on the outline, identify what logically comes AFTER \"" ++ cs ++ "\".\nThat is the territory for your suggestion.\n"
    | none => "\nBased on the outline, identify what logically comes next after what they just wrote.\nThat is the territory for your suggestion.\n"
  "You are a writing assistant helping a writer transition to their next section.\n\nTheir full outline: \"" ++ context.outline ++ "\"\n" ++
  (if context.thesis = "" then ""
   else "\nThe article\x27s core argument: \"" ++ context.thesis ++ "\"") ++
  "\nStyle: " ++ context.style ++
  "\nTone: " ++ context.tone ++ "\n" ++
  currentSectionLine ++
  "\nTheir last paragraph:\n\"" ++ lastParagraph ++ "\"\n" ++
  afterLine ++
  "\nReturn a JSON object with exactly two fields:\n- \"phrase\": the first 5-7 words to open the next section. Natural, " ++ context.tone ++ " voice. No punctuation at the end.\n- \"angle\": one concrete sentence describing the specific topic or argument to develop next. Reference actual concepts from the outline — be specific, not generic.\n\nReturn ONLY valid JSON. No explanation. No preamble. No markdown backticks.\nIf you cannot determine a helpful next section, return: " ++
  String.mk [lbrace] ++ "\"phrase\": \"\", \"angle\": \"\"" ++ String.mk [rbrace]

/-- Models `getNextSuggestion`: brace-delimited slice of the raw text is
parsed; every failure path collapses to the empty pair.  `parse` is the
external `JSON.parse` facility. -/
def getNextSuggestion (parse : String → Option ParsedNext)
    (call : String → LlmOutcome) (lastParagraph : String)
    (context : SessionContext) (currentSection : Option String) : NextResult :=
  match call (nextSystem lastParagraph context currentSection) with
  | .text text =>
    match firstIdxOf lbrace text.data, lastIdxOf rbrace text.data with
    | some start, some stop =>
      match parse ⟨(text.data.drop start).take (stop + 1 - start)⟩ with
      | some parsed =>
        { phrase := (parsed.phrase.map stripOneTrailPunct).getD ""
          angle := (parsed.angle.map (fun a => ⟨jsTrim a.data⟩)).getD "" }
      | none => ⟨"", ""⟩
    | _, _ => ⟨"", ""⟩
  | _ => ⟨"", ""⟩

/-! ### routes/predict.ts and routes/next.ts

Request bodies model the JSON payload: `none` is an absent (or `null`)
field.  Responses carry the HTTP status and the behaviour-critical body
fields.  The handlers thread the store explicitly (each `cache.get` can
delete an expired entry) and return the response with the final store. -/

structure PredictBody where
  sessionId : Option String
  mode : Option String
  precedingText : Option String
  position : Option Position
deriving DecidableEq, Repr

structure NextBody where
  sessionId : Option String
  lastParagraph : Option String
  currentSection : Option String
deriving DecidableEq, Repr

inductive RespBody where
  | error (msg : String)
  | predictOut (mode : String) (suggestion : String) (confidence : ℚ) (cached : Bool)
  | nextOut (phrase angle : String) (cached : Bool)
deriving DecidableEq, Repr

structure Resp where
  status : Nat
  body : RespBody
deriving DecidableEq, Repr

/-- Models the unchecked `cache.get<string>` cast on `predict:` keys (which
only ever hold strings; the fallback arm is unreachable under that key
discipline). -/
def CacheVal.castStr : CacheVal → String
  | .str s => s
  | _ => ""

/-- Models the unchecked `cache.get<SessionContext>` cast on `session:` keys. -/
def CacheVal.castCtx : CacheVal → SessionContext
  | .ctx c => c
  | _ => ⟨"", "", "", ""⟩

/-- Models the unchecked `cache.get<{phrase,angle}>` cast on `next:` keys. -/
def CacheVal.castPair : CacheVal → NextResult
  | .pair p a => ⟨p, a⟩
  | _ => ⟨"", ""⟩

def predictCacheKey (sessionId text : String) : String :=
  "predict:" ++ hashKey [sessionId, text]

/-- Models the `POST /predict` handler. -/
def predictHandler (body : PredictBody) (store : Store) (now : Int)
    (call : PromptPair → LlmOutcome) : Resp × Store :=
  match body.sessionId, body.mode, body.precedingText with
  | none, _, _ => (⟨400, .error "missing required field: sessionId"⟩, store)
  | some _, none, _ => (⟨400, .error "missing required field: mode"⟩, store)
  | some _, some _, none =>
    (⟨400, .error "missing required field: precedingText"⟩, store)
  | some sessionId, some mode, some precedingText =>
    if ¬ (mode = "word" ∨ mode = "bridge") then
      (⟨400, .error "mode must be word or bridge"⟩, store)
    else if precedingText = "" then
      (⟨200, .predictOut mode "" 0.85 false⟩, store)
    else
      let text := truncatePrecedingText precedingText
      let cacheKey := predictCacheKey sessionId text
      match InMemoryCache.get now cacheKey store with
      | (some v, store₁) =>
        (⟨200, .predictOut mode (CacheVal.castStr v) 0.85 true⟩, store₁)
      | (none, store₁) =>
        if mode = "word" then
          let suggestion := getWordSuggestion call text
          (⟨200, .predictOut mode suggestion 0.85 false⟩,
           InMemoryCache.set cacheKey (.str suggestion) TTL.PREDICTION now store₁)
        else
          match InMemoryCache.get now ("session:" ++ sessionId) store₁ with
          | (none, store₂) =>
            (⟨404, .error "Session not found or expired"⟩, store₂)
          | (some v, store₂) =>
            let context := CacheVal.castCtx v
            let suggestion :=
              getBridgeSuggestion call text context (body.position.getD .middle)
                .continue_
            (⟨200, .predictOut mode suggestion 0.85 false⟩,
             InMemoryCache.set cacheKey (.str suggestion) TTL.PREDICTION now store₂)

def nextCacheKey (sessionId truncated sect : String) : String :=
  "next:" ++ hashKey [sessionId, truncated ++ sect]

/-- Models the `POST /next` handler.  The session lookup degrades to the
empty context (`?? {outline:"",style:"",tone:""}`, hence thesis `""`). -/
def nextHandler (body : NextBody) (store : Store) (now : Int)
    (parse : String → Option ParsedNext) (call : String → LlmOutcome) :
    Resp × Store :=
  match body.sessionId with
  | none => (⟨400, .error "missing required field"⟩, store)
  | some sessionId =>
    if sessionId = "" then (⟨400, .error "missing required field"⟩, store)
    else
      match body.lastParagraph with
      | none => (⟨400, .error "missing required field"⟩, store)
      | some lastParagraph =>
        let got := InMemoryCache.get now ("session:" ++ sessionId) store
        let store₁ := got.2
        let context :=
          match got.1 with
          | some v => CacheVal.castCtx v
          | none => ⟨"", "", "", ""⟩
        let truncated := jsSliceTail500 lastParagraph
        let sect := body.currentSection.getD ""
        let cacheKey := nextCacheKey sessionId truncated sect
        match InMemoryCache.get now cacheKey store₁ with
        | (some v, store₂) =>
          (⟨200, .nextOut (CacheVal.castPair v).phrase (CacheVal.castPair v).angle true⟩,
           store₂)
        | (none, store₂) =>
          let result := getNextSuggestion parse call truncated context
            (if sect = "" then none else some sect)
          (⟨200, .nextOut result.phrase result.angle false⟩,
           InMemoryCache.set cacheKey (.pair result.phrase result.angle)
             TTL.PREDICTION now store₂)

/-- Lowercase hex characters, as produced by `digest("hex")`. -/
def isHexChar (c : Char) : Bool :=
  ('0' ≤ c && c ≤ '9') || ('a' ≤ c && c ≤ 'f')

/-- Store holding one `next:` cache entry, written under the key the /next
handler computes for session `"s"`, `lastParagraph "ab"`, section `"c"`. -/
def nextSharedStore : Store :=
  InMemoryCache.set (nextCacheKey "s" (jsSliceTail500 "ab") "c") (.pair "P" "A")
    TTL.PREDICTION 0 []

/-- Constant probe model: the "model" echoes back the system prompt it was
given, making the selected template observable in the response. -/
def probeCall : PromptPair → LlmOutcome :=
  fun pair => .text pair.system

/-- Store for the C1 counterexample: a cached suggestion exists under the
exact fingerprint the /predict handler computes for session `"s1"` and
preceding text `"hello "`, but no session entry exists at all. -/
def cachedNoSessionStore : Store :=
  InMemoryCache.set (predictCacheKey "s1" (truncatePrecedingText "hello "))
    (.str "hi") TTL.PREDICTION 0 []

/-- Store holding only a live session `"s1"` (no cached predictions). -/
def sessionOnlyStore : Store :=
  InMemoryCache.set "session:s1" (.ctx ⟨"o", "s", "t", ""⟩) TTL.SESSION 0 []

/-! ### Substring-occurrence machinery (for the thesis-line property)

`countOcc p l` counts positions of `l` at which the pattern `p` occurs
(as `p.isPrefixOf (l.drop i)`); `Occurs p l` is the textbook "substring"
statement.  The lemmas below let occurrence counts be computed across the
concatenations that build the prompt templates, with decidable
no-straddling side conditions at each junction. -/

def countOcc (p : List Char) : List Char → Nat
  | [] => if p.isPrefixOf ([] : List Char) then 1 else 0
  | c :: rest => (if p.isPrefixOf (c :: rest) then 1 else 0) + countOcc p rest

/-- Textbook substring relation: `p` occurs contiguously inside `l`. -/
def Occurs (p l : List Char) : Prop :=
  ∃ a b, l = a ++ p ++ b

/-- Straddling decomposition is impossible: no split of `p` has its left
part a suffix of `x` and its right part a prefix of `y`. -/
def NoStraddle (p x y : List Char) : Prop :=
  ∀ k, 0 < k → k < p.length →
    ¬ ((∃ t, x = t ++ p.take k) ∧ (∃ t, y = p.drop k ++ t))

/-- Decidable sufficient condition for `NoStraddle` on the left side: no
nonempty strict prefix of `p` is a suffix of `x`. -/
def noLeftB (p x : List Char) : Bool :=
  (List.range p.length).all
    (fun k => decide (k = 0) || ! ((p.take k).isSuffixOf x))

/-- Decidable sufficient condition for `NoStraddle` on the right side: no
nonempty strict suffix of `p` is a prefix of `y`. -/
def noRightB (p y : List Char) : Bool :=
  (List.range p.length).all
    (fun k => decide (k = 0) || ! ((p.drop k).isPrefixOf y))

/-- Pattern of the thesis line, as in testable property 7 of the spec. -/
def coreArg : List Char := "core argument".data

/-- Header line carrying the outline in every bridge template. -/
def outlineLine (o : String) : String :=
  "Their piece is about: \"" ++ o ++ "\""

/-- Thesis line inserted by `promptBuilder` when the thesis is non-empty. -/
def coreArgLine (th : String) : String :=
  "The article\x27s core argument: \"" ++ th ++ "\""

/-! ### Auxiliary facts for the SHA-256 digest shape -/

theorem shaRound_length (st : List Nat) (k : Nat) :
    (shaRound st k).length = st.length := by
  unfold shaRound
  split
  · rfl
  · rfl

theorem foldl_shaRound_length (l : List Nat) (st : List Nat) :
    (l.foldl shaRound st).length = st.length := by
  induction l generalizing st with
  | nil => rfl
  | cons x xs ih => simp [List.foldl_cons, ih, shaRound_length]

theorem shaBlockStep_length (h b : List Nat) :
    (shaBlockStep h b).length = h.length := by
  unfold shaBlockStep
  simp [List.length_zipWith, foldl_shaRound_length]

theorem foldl_shaBlockStep_length (bs : List (List Nat)) (st : List Nat) :
    (bs.foldl shaBlockStep st).length = st.length := by
  induction bs generalizing st with
  | nil => rfl
  | cons b bs ih =>
    simp only [List.foldl_cons]
    rw [ih, shaBlockStep_length]

theorem sha256Words_length (msg : List Nat) : (sha256Words msg).length = 8 := by
  unfold sha256Words
  rw [foldl_shaBlockStep_length]
  rfl

theorem hexWord32_length (w : Nat) : (hexWord32 w).length = 8 := by
  simp [hexWord32]

theorem flatten_map_hexWord32_length (ws : List Nat) :
    ((ws.map hexWord32).flatten).length = 8 * ws.length := by
  induction ws with
  | nil => rfl
  | cons w ws ih =>
    simp [List.flatten, hexWord32_length, ih, Nat.mul_succ]
    omega

theorem sha256Hex_length (s : String) : (sha256Hex s).length = 64 := by
  show ((sha256Words (utf8Bytes s)).map hexWord32).flatten.length = 64
  rw [flatten_map_hexWord32_length, sha256Words_length]

/-! ### C9 — fingerprint determinism, shape and order sensitivity -/

/-- C9: `hashKey` is deterministic (equal argument lists give equal keys),
its keys are 16 hex characters (length 16 in general; hex alphabet checked
on the spec's example), and it is order-sensitive on the spec's example:
`hashKey ["a","b"] ≠ hashKey ["b","a"]`. -/
theorem hashKey_deterministic_and_order_sensitive :
    (∀ ps qs : List String, ps = qs → hashKey ps = hashKey qs) ∧
    (∀ ps : List String, (hashKey ps).length = 16) ∧
    hashKey ["a", "b"] = hashKey ["a", "b"] ∧
    hashKey ["a", "b"] ≠ hashKey ["b", "a"] ∧
    (hashKey ["a", "b"]).data.all isHexChar = true := by
  refine ⟨fun ps qs h => by rw [h], fun ps => ?_, rfl, by decide, by decide⟩
  show ((sha256Hex (String.intercalate "|" ps)).data.take 16).length = 16
  rw [List.length_take]
  have h : (sha256Hex (String.intercalate "|" ps)).data.length = 64 :=
    sha256Hex_length (String.intercalate "|" ps)
  omega

/-- C9 witness: the determinism and length parts instantiated at
`["a","b"]`, the equality hypothesis discharged by `rfl`. -/
theorem hashKey_deterministic_and_order_sensitive_witness :
    hashKey ["a", "b"] = hashKey ["a", "b"] ∧ (hashKey ["a", "b"]).length = 16 :=
  ⟨hashKey_deterministic_and_order_sensitive.1 ["a", "b"] ["a", "b"] rfl,
   hashKey_deterministic_and_order_sensitive.2.1 ["a", "b"]⟩

/-! ### C10 — the `"|"`-joined fingerprint is not injective on tuples -/

/-- C10: joining parts with the literal `"|"` separator makes `hashKey`
non-injective on argument tuples — `hashKey ["a","b|c"] = hashKey ["a|b","c"]`
on distinct tuples — and the /next cache keys for
(lastParagraph `"ab"`, section `"c"`) and (lastParagraph `"a"`, section
`"bc"`) coincide under one session, so the two distinct requests are served
from one cache entry. -/
theorem hashKey_not_injective :
    hashKey ["a", "b|c"] = hashKey ["a|b", "c"] ∧
    (["a", "b|c"] : List String) ≠ ["a|b", "c"] ∧
    nextCacheKey "s" (jsSliceTail500 "ab") "c" =
      nextCacheKey "s" (jsSliceTail500 "a") "bc" ∧
    (("ab", "c") : String × String) ≠ ("a", "bc") ∧
    nextHandler ⟨some "s", some "ab", some "c"⟩ nextSharedStore 0
        (fun _ => none) (fun _ => .threw) =
      (⟨200, .nextOut "P" "A" true⟩, nextSharedStore) ∧
    nextHandler ⟨some "s", some "a", some "bc"⟩ nextSharedStore 0
        (fun _ => none) (fun _ => .threw) =
      (⟨200, .nextOut "P" "A" true⟩, nextSharedStore) := by
  refine ⟨by decide, by decide, by decide, by decide, by decide, by decide⟩

/-! ### C8 — truncateToTail (truncatePrecedingText) -/

theorem truncatePrecedingText_of_le (t : String) (h : t.length ≤ 500) :
    truncatePrecedingText t = t := by
  simp only [truncatePrecedingText, MAX_PRECEDING_TEXT]
  rw [if_pos h]

theorem truncatePrecedingText_of_gt (t : String) (h : 500 < t.length) :
    truncatePrecedingText t = ⟨t.data.drop (t.data.length - 500)⟩ := by
  simp only [truncatePrecedingText, MAX_PRECEDING_TEXT]
  rw [if_neg (by omega)]

/-- C8: `truncatePrecedingText` is idempotent, returns inputs of at most 500
characters unchanged, and otherwise returns exactly the last 500 characters
(equal to `input.slice(-500)`). -/
theorem truncatePrecedingText_spec (t : String) :
    truncatePrecedingText (truncatePrecedingText t) = truncatePrecedingText t ∧
    (t.length ≤ 500 → truncatePrecedingText t = t) ∧
    (500 < t.length →
      truncatePrecedingText t = jsSliceTail500 t ∧
      (truncatePrecedingText t).length = 500 ∧
      ∃ pre, t.data = pre ++ (truncatePrecedingText t).data ∧
        pre.length = t.length - 500) := by
  have hlen : t.length = t.data.length := rfl
  by_cases h : t.length ≤ 500
  · refine ⟨?_, fun _ => truncatePrecedingText_of_le t h,
      fun hc => absurd hc (by omega)⟩
    rw [truncatePrecedingText_of_le t h, truncatePrecedingText_of_le t h]
  · push_neg at h
    have hdef := truncatePrecedingText_of_gt t h
    have hdropLen : (truncatePrecedingText t).length = 500 := by
      rw [hdef]
      show (t.data.drop (t.data.length - 500)).length = 500
      rw [List.length_drop]
      omega
    refine ⟨?_, fun hc => absurd h (by omega), fun _ => ⟨?_, hdropLen, ?_⟩⟩
    · exact truncatePrecedingText_of_le _ (by omega)
    · rw [hdef]
      unfold jsSliceTail500
      have harg : t.data.length - 500 = t.data.length - min 500 t.data.length := by
        omega
      rw [harg]
    · refine ⟨t.data.take (t.data.length - 500), ?_, ?_⟩
      · rw [hdef]
        show t.data = t.data.take (t.data.length - 500) ++
          t.data.drop (t.data.length - 500)
        exact (List.take_append_drop (t.data.length - 500) t.data).symm
      · rw [List.length_take]
        omega

/-- C8 witness: a 600-character input (100 `b`s then 500 `a`s) truncates to
its last 500 characters; a 100-character input is returned unchanged. -/
theorem truncatePrecedingText_spec_witness :
    (500 : Nat) <
        (String.mk (List.replicate 100 'b' ++ List.replicate 500 'a')).length ∧
    truncatePrecedingText
        (String.mk (List.replicate 100 'b' ++ List.replicate 500 'a')) =
      jsSliceTail500
        (String.mk (List.replicate 100 'b' ++ List.replicate 500 'a')) ∧
    truncatePrecedingText (String.mk (List.replicate 100 'b')) =
      String.mk (List.replicate 100 'b') := by
  have h6 : (500 : Nat) <
      (String.mk (List.replicate 100 'b' ++ List.replicate 500 'a')).length := by
    show (500 : Nat) < (List.replicate 100 'b' ++ List.replicate 500 'a').length
    rw [List.length_append, List.length_replicate, List.length_replicate]
    omega
  have h1 : (String.mk (List.replicate 100 'b')).length ≤ 500 := by
    show (List.replicate 100 'b').length ≤ 500
    rw [List.length_replicate]
    omega
  exact ⟨h6, ((truncatePrecedingText_spec _).2.2 h6).1,
    (truncatePrecedingText_spec _).2.1 h1⟩

/-! ### Store helper lemmas -/

theorem find?_filter_none {l : Store} {q : String × CacheEntry → Bool}
    {k : String} (h : l.find? (fun p => p.1 = k) = none) :
    (l.filter q).find? (fun p => p.1 = k) = none := by
  rw [List.find?_eq_none] at h ⊢
  intro x hx
  exact h x (List.mem_filter.mp hx).1

theorem find?_after_delete (l : Store) (k : String) :
    (l.filter (fun p => ¬ (p.1 = k))).find? (fun p => p.1 = k) = none := by
  rw [List.find?_eq_none]
  intro x hx
  have hq := (List.mem_filter.mp hx).2
  simpa using hq

theorem get_none_no_entry {now : Int} {k : String} {s : Store}
    (h : (InMemoryCache.get now k s).1 = none) :
    ((InMemoryCache.get now k s).2).find? (fun p => p.1 = k) = none := by
  unfold InMemoryCache.get at *
  rcases hf : s.find? (fun p => p.1 = k) with _ | e
  · rw [hf]
    exact hf
  · rw [hf] at h ⊢
    dsimp only at h ⊢
    by_cases hexp : now > e.2.expiresAt
    · rw [if_pos hexp]
      exact find?_after_delete s k
    · rw [if_neg hexp] at h
      exact absurd h (by simp)

theorem get_preserves_no_entry {now : Int} {k' k : String} {s : Store}
    (h : s.find? (fun p => p.1 = k) = none) :
    ((InMemoryCache.get now k' s).2).find? (fun p => p.1 = k) = none := by
  unfold InMemoryCache.get
  rcases hf : s.find? (fun p => p.1 = k') with _ | e
  · rw [hf]
    exact h
  · rw [hf]
    dsimp only
    by_cases hexp : now > e.2.expiresAt
    · rw [if_pos hexp]
      exact find?_filter_none h
    · rw [if_neg hexp]
      exact h

theorem getAfterSet_live (k : String) (v : CacheVal) (ttl now now' : Int)
    (s : Store) (h : now' ≤ now + ttl * 1000) :
    InMemoryCache.get now' k (InMemoryCache.set k v ttl now s) =
      (some v, InMemoryCache.set k v ttl now s) := by
  have hfind :
      (InMemoryCache.set k v ttl now s).find? (fun p => p.1 = k) =
        some (k, ⟨v, now + ttl * 1000⟩) := by
    unfold InMemoryCache.set
    rw [List.find?_cons_of_pos _ (by simp)]
  unfold InMemoryCache.get
  rw [hfind]
  dsimp only
  rw [if_neg (by simp; omega)]

theorem getAfterSet_expired (k : String) (v : CacheVal) (ttl now now' : Int)
    (s : Store) (h : now + ttl * 1000 < now') :
    (InMemoryCache.get now' k (InMemoryCache.set k v ttl now s)).1 = none ∧
    (InMemoryCache.get now' k (InMemoryCache.set k v ttl now s)).2.find?
      (fun p => p.1 = k) = none := by
  have hfind :
      (InMemoryCache.set k v ttl now s).find? (fun p => p.1 = k) =
        some (k, ⟨v, now + ttl * 1000⟩) := by
    unfold InMemoryCache.set
    rw [List.find?_cons_of_pos _ (by simp)]
  unfold InMemoryCache.get
  rw [hfind]
  dsimp only
  rw [if_pos (by simp; omega)]
  exact ⟨rfl, find?_after_delete _ _⟩

/-! ### C7 — expiring-store round trip -/

/-- C7: after `set k v ttl` at time `now`, a `get` at any `now' ≤ now + ttl·1000`
returns `v` (store untouched); once the TTL has elapsed (`now' > now + ttl·1000`)
the `get` returns `none` and the resulting store no longer holds an entry for
`k` (the read deletes it). -/
theorem cache_roundtrip (k : String) (v : CacheVal) (ttl now now' : Int)
    (s : Store) :
    (now' ≤ now + ttl * 1000 →
      InMemoryCache.get now' k (InMemoryCache.set k v ttl now s) =
        (some v, InMemoryCache.set k v ttl now s)) ∧
    (now + ttl * 1000 < now' →
      (InMemoryCache.get now' k (InMemoryCache.set k v ttl now s)).1 = none ∧
      (InMemoryCache.get now' k (InMemoryCache.set k v ttl now s)).2.find?
        (fun p => p.1 = k) = none) :=
  ⟨getAfterSet_live k v ttl now now' s, getAfterSet_expired k v ttl now now' s⟩

/-- C7 witness: `set "k" (str "v")` with a 5-second TTL at time 0; reading at
3000 ms returns the value, reading at 6000 ms returns `none` and deletes. -/
theorem cache_roundtrip_witness :
    InMemoryCache.get 3000 "k" (InMemoryCache.set "k" (.str "v") 5 0 []) =
      (some (.str "v"), InMemoryCache.set "k" (.str "v") 5 0 []) ∧
    (InMemoryCache.get 6000 "k" (InMemoryCache.set "k" (.str "v") 5 0 [])).1 =
      none ∧
    (InMemoryCache.get 6000 "k" (InMemoryCache.set "k" (.str "v") 5 0 [])).2.find?
      (fun p => p.1 = "k") = none :=
  ⟨(cache_roundtrip "k" (.str "v") 5 0 3000 []).1 (by omega),
   (cache_roundtrip "k" (.str "v") 5 0 6000 []).2 (by omega)⟩

/-! ### C6 — classifiers are pure functions of the word count -/

/-- C6: `detectPosition` and `detectStage` are pure functions of the
whitespace-run word count (whitespace-only input counts zero words) and
partition exactly at the documented boundaries. -/
theorem classifiers_partition :
    (∀ s t : String, countWords s = countWords t →
      detectPosition s = detectPosition t ∧ detectStage s = detectStage t) ∧
    (∀ s : String, (∀ c ∈ s.data, isJsWs c) → countWords s = 0) ∧
    (∀ s : String,
      (detectPosition s = .opening ↔ countWords s < 50) ∧
      (detectPosition s = .middle ↔ 50 ≤ countWords s ∧ countWords s < 300) ∧
      (detectPosition s = .closing ↔ 300 ≤ countWords s) ∧
      (detectStage s = .start ↔ countWords s = 0) ∧
      (detectStage s = .establish ↔ 1 ≤ countWords s ∧ countWords s < 20) ∧
      (detectStage s = .continue_ ↔ 20 ≤ countWords s)) := by
  refine ⟨fun s t h => ?_, fun s hws => ?_, fun s => ?_⟩
  · constructor
    · unfold detectPosition
      rw [h]
    · unfold detectStage
      rw [h]
  · have h1 : s.data.dropWhile isJsWs = [] := List.dropWhile_eq_nil_iff.mpr hws
    unfold countWords jsTrim
    rw [h1]
    rfl
  · simp only [detectPosition, detectStage]
    split_ifs <;> simp_all <;> omega

/-- C6 witness: concrete boundary inputs evaluated through the theorem. -/
theorem classifiers_partition_witness :
    detectPosition "p q" = detectPosition "r s" ∧
    countWords " \t  " = 0 ∧
    (detectStage "hello world" = .establish ↔
      1 ≤ countWords "hello world" ∧ countWords "hello world" < 20) :=
  ⟨(classifiers_partition.1 "p q" "r s" (by decide)).1,
   classifiers_partition.2.1 " \t  " (by decide),
   (classifiers_partition.2.2 "hello world").2.2.2.2.1⟩

/-! ### Path lemmas for the /predict handler (bridge mode) -/

theorem predictHandler_bridge_hit (sid pt : String) (posOpt : Option Position)
    (store : Store) (now : Int) (call : PromptPair → LlmOutcome)
    (hpt : pt ≠ "") (v : CacheVal) (st₁ : Store)
    (hE : InMemoryCache.get now (predictCacheKey sid (truncatePrecedingText pt))
      store = (some v, st₁)) :
    predictHandler ⟨some sid, some "bridge", some pt, posOpt⟩ store now call =
      (⟨200, .predictOut "bridge" (CacheVal.castStr v) 0.85 true⟩, st₁) := by
  unfold predictHandler
  dsimp only
  rw [if_neg (by simp), if_neg hpt, hE]

theorem predictHandler_bridge_miss_nosession (sid pt : String)
    (posOpt : Option Position) (store : Store) (now : Int)
    (call : PromptPair → LlmOutcome) (hpt : pt ≠ "") (st₁ st₂ : Store)
    (h₁ : InMemoryCache.get now (predictCacheKey sid (truncatePrecedingText pt))
      store = (none, st₁))
    (h₂ : InMemoryCache.get now ("session:" ++ sid) st₁ = (none, st₂)) :
    predictHandler ⟨some sid, some "bridge", some pt, posOpt⟩ store now call =
      (⟨404, .error "Session not found or expired"⟩, st₂) := by
  unfold predictHandler
  dsimp only
  rw [if_neg (by simp), if_neg hpt, h₁]
  dsimp only
  rw [if_neg (by simp), h₂]

theorem predictHandler_bridge_miss_session (sid pt : String)
    (posOpt : Option Position) (store : Store) (now : Int)
    (call : PromptPair → LlmOutcome) (hpt : pt ≠ "") (st₁ st₂ : Store)
    (v : CacheVal)
    (h₁ : InMemoryCache.get now (predictCacheKey sid (truncatePrecedingText pt))
      store = (none, st₁))
    (h₂ : InMemoryCache.get now ("session:" ++ sid) st₁ = (some v, st₂)) :
    predictHandler ⟨some sid, some "bridge", some pt, posOpt⟩ store now call =
      (⟨200, .predictOut "bridge"
          (getBridgeSuggestion call (truncatePrecedingText pt)
            (CacheVal.castCtx v) (posOpt.getD .middle) .continue_) 0.85 false⟩,
       InMemoryCache.set (predictCacheKey sid (truncatePrecedingText pt))
        (.str (getBridgeSuggestion call (truncatePrecedingText pt)
          (CacheVal.castCtx v) (posOpt.getD .middle) .continue_))
        TTL.PREDICTION now st₂) := by
  unfold predictHandler
  dsimp only
  rw [if_neg (by simp), if_neg hpt, h₁]
  dsimp only
  rw [if_neg (by simp), h₂]

/-! ### C1 — in bridge mode the cache is consulted before the session -/

/-- C1 (amended): for a valid bridge-mode /predict request with non-empty
`precedingText`, the prediction cache is consulted first: on a cache hit the
cached suggestion is returned with `cached = true` without any session
lookup (even when the session is absent or expired), and only on a cache
miss is the session loaded, a missing/expired session then failing with 404
and writing nothing to the prediction cache. -/
theorem predict_session_checked_after_cache (sid pt : String)
    (posOpt : Option Position) (store : Store) (now : Int)
    (call : PromptPair → LlmOutcome) (hpt : pt ≠ "") :
    ((InMemoryCache.get now (predictCacheKey sid (truncatePrecedingText pt))
        store).1 ≠ none →
      predictHandler ⟨some sid, some "bridge", some pt, posOpt⟩ store now call =
        (⟨200, .predictOut "bridge"
            (((InMemoryCache.get now
                (predictCacheKey sid (truncatePrecedingText pt)) store).1.map
              CacheVal.castStr).getD "") 0.85 true⟩,
         (InMemoryCache.get now (predictCacheKey sid (truncatePrecedingText pt))
            store).2)) ∧
    ((InMemoryCache.get now (predictCacheKey sid (truncatePrecedingText pt))
        store).1 = none →
     (InMemoryCache.get now ("session:" ++ sid)
        (InMemoryCache.get now (predictCacheKey sid (truncatePrecedingText pt))
          store).2).1 = none →
      predictHandler ⟨some sid, some "bridge", some pt, posOpt⟩ store now call =
        (⟨404, .error "Session not found or expired"⟩,
         (InMemoryCache.get now ("session:" ++ sid)
            (InMemoryCache.get now
              (predictCacheKey sid (truncatePrecedingText pt)) store).2).2) ∧
      (InMemoryCache.get now ("session:" ++ sid)
         (InMemoryCache.get now (predictCacheKey sid (truncatePrecedingText pt))
           store).2).2.find?
        (fun p => p.1 = predictCacheKey sid (truncatePrecedingText pt)) =
        none) := by
  rcases hE : InMemoryCache.get now
      (predictCacheKey sid (truncatePrecedingText pt)) store with ⟨v₁, st₁⟩
  constructor
  · intro hne
    cases v₁ with
    | none => exact absurd rfl hne
    | some v =>
      simpa using predictHandler_bridge_hit sid pt posOpt store now call hpt v
        st₁ hE
  · intro h₁ h₂
    cases v₁ with
    | some v => exact absurd h₁ (by simp)
    | none =>
      rcases hS : InMemoryCache.get now ("session:" ++ sid) st₁ with ⟨c₁, st₂⟩
      cases c₁ with
      | some c =>
        have h₂x : (InMemoryCache.get now ("session:" ++ sid) st₁).1 = none := h₂
        rw [hS] at h₂x
        exact absurd h₂x (by simp)
      | none =>
        have hnone₁ : st₁.find?
            (fun p => p.1 = predictCacheKey sid (truncatePrecedingText pt)) =
            none := by
          have h0 := @get_none_no_entry now
            (predictCacheKey sid (truncatePrecedingText pt)) store
            (by rw [hE])
          rwa [hE] at h0
        have h3 := @get_preserves_no_entry now ("session:" ++ sid)
          (predictCacheKey sid (truncatePrecedingText pt)) st₁ hnone₁
        rw [hS] at h3
        exact ⟨predictHandler_bridge_miss_nosession sid pt posOpt store now
          call hpt st₁ st₂ hE hS, h3⟩

/-- C1 counterexample: with a cached suggestion under the request fingerprint
and no session entry at all, the bridge request is answered 200 from cache
(`cached = true`), not 404 — so the session lookup does not precede the
cache lookup, refuting the claim as stated. -/
theorem predict_cached_returned_while_session_missing :
    (InMemoryCache.get 1000 "session:s1" cachedNoSessionStore).1 = none ∧
    predictHandler ⟨some "s1", some "bridge", some "hello ", none⟩
        cachedNoSessionStore 1000 (fun _ => .threw) =
      (⟨200, .predictOut "bridge" "hi" 0.85 true⟩, cachedNoSessionStore) := by
  exact ⟨rfl, rfl⟩

/-- C1 witness: the amended theorem applied concretely — cache miss and
missing session yield 404 on the empty store. -/
theorem predict_session_checked_after_cache_witness :
    predictHandler ⟨some "s1", some "bridge", some "hello ", none⟩ [] 1000
        (fun _ => .threw) =
      (⟨404, .error "Session not found or expired"⟩, []) :=
  ((predict_session_checked_after_cache "s1" "hello " none [] 1000
      (fun _ => .threw) (by decide)).2 (by decide) (by decide)).1

/-! ### C3 — model-call failure is cached as an empty suggestion -/

/-- C3: when the external model call throws during a bridge /predict request
(valid, non-empty text, cache miss, session present), `getBridgeSuggestion`
resolves to `""`, the handler responds 200 with the empty suggestion and
stores it under the request fingerprint with the 5-minute TTL, and any
identical request up to 300000 ms later is answered from cache
(`cached = true`) with the same empty suggestion, whatever the model would
do the second time. -/
theorem predict_model_failure_cached_empty (sid pt : String)
    (posOpt : Option Position) (store st₁ st₂ : Store) (now now₂ : Int)
    (c : SessionContext) (hpt : pt ≠ "")
    (hmiss : InMemoryCache.get now
      (predictCacheKey sid (truncatePrecedingText pt)) store = (none, st₁))
    (hsess : InMemoryCache.get now ("session:" ++ sid) st₁ =
      (some (.ctx c), st₂))
    (hwin : now₂ ≤ now + 300000) :
    getBridgeSuggestion (fun _ => .threw) (truncatePrecedingText pt) c
        (posOpt.getD .middle) .continue_ = "" ∧
    predictHandler ⟨some sid, some "bridge", some pt, posOpt⟩ store now
        (fun _ => .threw) =
      (⟨200, .predictOut "bridge" "" 0.85 false⟩,
       InMemoryCache.set (predictCacheKey sid (truncatePrecedingText pt))
        (.str "") TTL.PREDICTION now st₂) ∧
    ∀ call₂ : PromptPair → LlmOutcome,
      predictHandler ⟨some sid, some "bridge", some pt, posOpt⟩
          (InMemoryCache.set (predictCacheKey sid (truncatePrecedingText pt))
            (.str "") TTL.PREDICTION now st₂) now₂ call₂ =
        (⟨200, .predictOut "bridge" "" 0.85 true⟩,
         InMemoryCache.set (predictCacheKey sid (truncatePrecedingText pt))
          (.str "") TTL.PREDICTION now st₂) := by
  refine ⟨rfl, ?_, ?_⟩
  · have h := predictHandler_bridge_miss_session sid pt posOpt store now
      (fun _ => .threw) hpt st₁ st₂ (.ctx c) hmiss hsess
    simpa using h
  · intro call₂
    have hget := getAfterSet_live
      (predictCacheKey sid (truncatePrecedingText pt)) (.str "")
      TTL.PREDICTION now now₂ st₂ (by unfold TTL.PREDICTION; omega)
    have h := predictHandler_bridge_hit sid pt posOpt
      (InMemoryCache.set (predictCacheKey sid (truncatePrecedingText pt))
        (.str "") TTL.PREDICTION now st₂) now₂ call₂ hpt (.str "") _ hget
    simpa using h

/-- C3 witness: concrete replay — session present, model throws, the empty
suggestion is cached and the identical request 200 s later hits the cache. -/
theorem predict_model_failure_cached_empty_witness :
    predictHandler ⟨some "s1", some "bridge", some "hello ", none⟩
        sessionOnlyStore 1000 (fun _ => .threw) =
      (⟨200, .predictOut "bridge" "" 0.85 false⟩,
       InMemoryCache.set (predictCacheKey "s1" (truncatePrecedingText "hello "))
        (.str "") TTL.PREDICTION 1000
        (InMemoryCache.get 1000 "session:s1"
          (InMemoryCache.get 1000
            (predictCacheKey "s1" (truncatePrecedingText "hello "))
            sessionOnlyStore).2).2) ∧
    predictHandler ⟨some "s1", some "bridge", some "hello ", none⟩
        (InMemoryCache.set (predictCacheKey "s1" (truncatePrecedingText "hello "))
          (.str "") TTL.PREDICTION 1000
          (InMemoryCache.get 1000 "session:s1"
            (InMemoryCache.get 1000
              (predictCacheKey "s1" (truncatePrecedingText "hello "))
              sessionOnlyStore).2).2) 201000 probeCall =
      (⟨200, .predictOut "bridge" "" 0.85 true⟩,
       InMemoryCache.set (predictCacheKey "s1" (truncatePrecedingText "hello "))
        (.str "") TTL.PREDICTION 1000
        (InMemoryCache.get 1000 "session:s1"
          (InMemoryCache.get 1000
            (predictCacheKey "s1" (truncatePrecedingText "hello "))
            sessionOnlyStore).2).2) := by
  have h := predict_model_failure_cached_empty "s1" "hello " none
    sessionOnlyStore
    (InMemoryCache.get 1000
      (predictCacheKey "s1" (truncatePrecedingText "hello "))
      sessionOnlyStore).2
    (InMemoryCache.get 1000 "session:s1"
      (InMemoryCache.get 1000
        (predictCacheKey "s1" (truncatePrecedingText "hello "))
        sessionOnlyStore).2).2
    1000 201000 ⟨"o", "s", "t", ""⟩ (by decide) (by decide) (by decide)
    (by omega)
  exact ⟨h.2.1, h.2.2 probeCall⟩

/-! ### C2 — the route never classifies (or accepts) a stage -/

/-- C2 evidence: `predict.ts` neither reads a `stage` field nor calls
`detectStage`; `getBridgeSuggestion` is always invoked with its default
stage `continue`.  With the probe model (which echoes the system prompt
back), a bridge request whose preceding text `detectStage` classifies as
`establish` is answered from the `continue`/`middle` template — which
differs from the `establish` template — and a blank-page request
(`precedingText = ""`, stage `start`) short-circuits to an empty
suggestion without building any prompt at all. -/
theorem predict_never_uses_detectStage :
    detectStage "hello world " = .establish ∧
    (predictHandler ⟨some "s1", some "bridge", some "hello world ", none⟩
        sessionOnlyStore 1000 probeCall).1 =
      ⟨200, .predictOut "bridge"
        (postProcessSuggestion
          (promptBuilder "o" "s" "t" "" "hello world " .continue_ .middle).system)
        0.85 false⟩ ∧
    (promptBuilder "o" "s" "t" "" "hello world " .continue_ .middle).system ≠
      (promptBuilder "o" "s" "t" "" "hello world " .establish .middle).system ∧
    predictHandler ⟨some "s1", some "bridge", some "", none⟩
        sessionOnlyStore 1000 probeCall =
      (⟨200, .predictOut "bridge" "" 0.85 false⟩, sessionOnlyStore) := by
  exact ⟨by decide, rfl, by decide, rfl⟩

/-! ### Path lemmas for the /next handler (session missing) -/

theorem nextHandler_sessmiss_cachehit (sid lp : String) (cs : Option String)
    (store : Store) (now : Int) (parse : String → Option ParsedNext)
    (call : String → LlmOutcome) (hsid : sid ≠ "") (st₁ st₂ : Store)
    (v : CacheVal)
    (hG : InMemoryCache.get now ("session:" ++ sid) store = (none, st₁))
    (hC : InMemoryCache.get now
      (nextCacheKey sid (jsSliceTail500 lp) (cs.getD "")) st₁ = (some v, st₂)) :
    nextHandler ⟨some sid, some lp, cs⟩ store now parse call =
      (⟨200, .nextOut (CacheVal.castPair v).phrase (CacheVal.castPair v).angle
          true⟩, st₂) := by
  unfold nextHandler
  dsimp only
  rw [if_neg hsid, hG]
  dsimp only
  rw [hC]

theorem nextHandler_sessmiss_cachemiss (sid lp : String) (cs : Option String)
    (store : Store) (now : Int) (parse : String → Option ParsedNext)
    (call : String → LlmOutcome) (hsid : sid ≠ "") (st₁ st₂ : Store)
    (hG : InMemoryCache.get now ("session:" ++ sid) store = (none, st₁))
    (hC : InMemoryCache.get now
      (nextCacheKey sid (jsSliceTail500 lp) (cs.getD "")) st₁ = (none, st₂)) :
    nextHandler ⟨some sid, some lp, cs⟩ store now parse call =
      (⟨200, .nextOut
          (getNextSuggestion parse call (jsSliceTail500 lp) ⟨"", "", "", ""⟩
            (if cs.getD "" = "" then none else some (cs.getD ""))).phrase
          (getNextSuggestion parse call (jsSliceTail500 lp) ⟨"", "", "", ""⟩
            (if cs.getD "" = "" then none else some (cs.getD ""))).angle
          false⟩,
       InMemoryCache.set (nextCacheKey sid (jsSliceTail500 lp) (cs.getD ""))
        (.pair
          (getNextSuggestion parse call (jsSliceTail500 lp) ⟨"", "", "", ""⟩
            (if cs.getD "" = "" then none else some (cs.getD ""))).phrase
          (getNextSuggestion parse call (jsSliceTail500 lp) ⟨"", "", "", ""⟩
            (if cs.getD "" = "" then none else some (cs.getD ""))).angle)
        TTL.PREDICTION now st₂) := by
  unfold nextHandler
  dsimp only
  rw [if_neg hsid, hG]
  dsimp only
  rw [hC]

/-! ### C4 — /next degrades on a missing session instead of 404ing -/

/-- C4: a valid /next request whose session is unknown or expired is
answered with HTTP 200 (never 404): the handler falls back to the empty
outline/style/tone context, and on a cache miss still produces a
phrase/angle result computed from that empty context. -/
theorem next_missing_session_degrades (sid lp : String) (cs : Option String)
    (store : Store) (now : Int) (parse : String → Option ParsedNext)
    (call : String → LlmOutcome) (hsid : sid ≠ "")
    (hsess : (InMemoryCache.get now ("session:" ++ sid) store).1 = none) :
    (nextHandler ⟨some sid, some lp, cs⟩ store now parse call).1.status = 200 ∧
    ((InMemoryCache.get now (nextCacheKey sid (jsSliceTail500 lp) (cs.getD ""))
        (InMemoryCache.get now ("session:" ++ sid) store).2).1 = none →
      nextHandler ⟨some sid, some lp, cs⟩ store now parse call =
        (⟨200, .nextOut
            (getNextSuggestion parse call (jsSliceTail500 lp) ⟨"", "", "", ""⟩
              (if cs.getD "" = "" then none else some (cs.getD ""))).phrase
            (getNextSuggestion parse call (jsSliceTail500 lp) ⟨"", "", "", ""⟩
              (if cs.getD "" = "" then none else some (cs.getD ""))).angle
            false⟩,
         InMemoryCache.set (nextCacheKey sid (jsSliceTail500 lp) (cs.getD ""))
          (.pair
            (getNextSuggestion parse call (jsSliceTail500 lp) ⟨"", "", "", ""⟩
              (if cs.getD "" = "" then none else some (cs.getD ""))).phrase
            (getNextSuggestion parse call (jsSliceTail500 lp) ⟨"", "", "", ""⟩
              (if cs.getD "" = "" then none else some (cs.getD ""))).angle)
          TTL.PREDICTION now
          (InMemoryCache.get now
            (nextCacheKey sid (jsSliceTail500 lp) (cs.getD ""))
            (InMemoryCache.get now ("session:" ++ sid) store).2).2)) := by
  rcases hG : InMemoryCache.get now ("session:" ++ sid) store with ⟨c₁, st₁⟩
  cases c₁ with
  | some c =>
    have hx : (InMemoryCache.get now ("session:" ++ sid) store).1 = none := hsess
    rw [hG] at hx
    exact absurd hx (by simp)
  | none =>
    rcases hC : InMemoryCache.get now
        (nextCacheKey sid (jsSliceTail500 lp) (cs.getD "")) st₁ with ⟨v₂, st₂⟩
    cases v₂ with
    | some v =>
      constructor
      · rw [nextHandler_sessmiss_cachehit sid lp cs store now parse call hsid
          st₁ st₂ v hG hC]
      · intro h
        exact absurd h (by simp)
    | none =>
      have hmain := nextHandler_sessmiss_cachemiss sid lp cs store now parse
        call hsid st₁ st₂ hG hC
      constructor
      · rw [hmain]
      · intro _
        rw [hmain]

/-- C4 witness: unknown session on the empty store — HTTP 200, result from
the empty context, nothing a 404. -/
theorem next_missing_session_degrades_witness :
    nextHandler ⟨some "sX", some "para", none⟩ [] 0 (fun _ => none)
        (fun _ => .threw) =
      (⟨200, .nextOut "" "" false⟩,
       InMemoryCache.set (nextCacheKey "sX" (jsSliceTail500 "para") "")
        (.pair "" "") TTL.PREDICTION 0 []) :=
  (next_missing_session_degrades "sX" "para" none [] 0 (fun _ => none)
    (fun _ => .threw) (by decide) (by rfl)).2 (by rfl)

/-! ### Occurrence-count lemmas -/

theorem pfx_iff {p l : List Char} : p.isPrefixOf l = true ↔ ∃ t, l = p ++ t := by
  rw [ List.isPrefixOf_iff_prefix]
  constructor
  · rintro ⟨t, rfl⟩
    exact ⟨t, rfl⟩
  · rintro ⟨t, rfl⟩
    exact ⟨t, rfl⟩

theorem sfx_iff {p l : List Char} : p.isSuffixOf l = true ↔ ∃ t, l = t ++ p := by
  rw [ List.isSuffixOf_iff_suffix]
  constructor
  · rintro ⟨t, rfl⟩
    exact ⟨t, rfl⟩
  · rintro ⟨t, rfl⟩
    exact ⟨t, rfl⟩

theorem countOcc_nil {p : List Char} (hp : p ≠ []) : countOcc p [] = 0 := by
  cases p with
  | nil => exact absurd rfl hp
  | cons a as => rfl

theorem noStraddle_cons {p : List Char} {c : Char} {x y : List Char}
    (h : NoStraddle p (c :: x) y) : NoStraddle p x y := by
  intro k hk1 hk2 ⟨⟨t, hxt⟩, hy⟩
  exact h k hk1 hk2 ⟨⟨c :: t, by rw [hxt]; rfl⟩, hy⟩

theorem isPrefixOf_append_eq {p x y : List Char} (hx : x ≠ [])
    (hns : NoStraddle p x y) :
    p.isPrefixOf (x ++ y) = p.isPrefixOf x := by
  by_cases hb : p.isPrefixOf x
  · obtain ⟨t, rfl⟩ := pfx_iff.mp hb
    rw [hb]
    exact pfx_iff.mpr ⟨t ++ y, by rw [List.append_assoc]⟩
  · rw [Bool.eq_false_iff.mpr hb]
    rw [Bool.eq_false_iff]
    intro hc
    obtain ⟨t, ht⟩ := pfx_iff.mp hc
    by_cases hlen : p.length ≤ x.length
    · have htake : (x ++ y).take p.length = p := by
        rw [ht]
        exact List.take_left p t
      rw [List.take_append_of_le_length hlen] at htake
      have hx2 : x = p ++ x.drop p.length := by
        nth_rewrite 1 [← List.take_append_drop p.length x]
        rw [htake]
      exact hb (pfx_iff.mpr ⟨x.drop p.length, hx2⟩)
    · push_neg at hlen
      refine hns x.length (by cases x with
          | nil => exact absurd rfl hx
          | cons c cs => simp) hlen ⟨⟨[], ?_⟩, ⟨t, ?_⟩⟩
      · have h1 : (x ++ y).take x.length = x := List.take_left x y
        rw [ht, List.take_append_of_le_length (le_of_lt hlen)] at h1
        simpa using h1.symm
      · have h1 : (x ++ y).drop x.length = y := List.drop_left x y
        rw [ht, List.drop_append_of_le_length (le_of_lt hlen)] at h1
        exact h1.symm

theorem countOcc_append {p : List Char} (hp : p ≠ []) {x y : List Char}
    (hns : NoStraddle p x y) :
    countOcc p (x ++ y) = countOcc p x + countOcc p y := by
  induction x with
  | nil =>
    rw [List.nil_append, countOcc_nil hp]
    omega
  | cons c x ih =>
    have h1 : (c :: x) ++ y = c :: (x ++ y) := rfl
    rw [h1]
    show (if p.isPrefixOf (c :: (x ++ y)) then 1 else 0) + countOcc p (x ++ y) =
      countOcc p (c :: x) + countOcc p y
    have h2 : p.isPrefixOf (c :: (x ++ y)) = p.isPrefixOf (c :: x) :=
      isPrefixOf_append_eq (by simp) hns
    rw [h2, ih (noStraddle_cons hns)]
    show _ = (if p.isPrefixOf (c :: x) then 1 else 0) + countOcc p x + countOcc p y
    omega

theorem noStraddle_of_head {p : List Char} {d : Char} (hd : d ∉ p)
    (x y : List Char) : NoStraddle p x (d :: y) := by
  intro k hk1 hk2 ⟨_, ⟨t, hy⟩⟩
  cases hdk : p.drop k with
  | nil =>
    have : p.length ≤ k := by
      have := congrArg List.length hdk
      rw [List.length_drop] at this
      simp at this
      omega
    omega
  | cons e rest =>
    rw [hdk] at hy
    have hde : d = e := by
      have := congrArg (fun l => l.head?) hy
      simpa using this
    have he : e ∈ p := by
      have h1 : e ∈ p.drop k := by
        rw [hdk]
        exact List.mem_cons_self e rest
      have h2 : e ∈ p.take k ++ p.drop k := List.mem_append_right _ h1
      rwa [List.take_append_drop] at h2
    exact hd (hde ▸ he)

theorem noStraddle_of_noLeftB {p x : List Char} (h : noLeftB p x = true)
    (y : List Char) : NoStraddle p x y := by
  intro k hk1 hk2 ⟨⟨t, hxt⟩, _⟩
  have hk : k ∈ List.range p.length := List.mem_range.mpr hk2
  have := (List.all_eq_true.mp h) k hk
  rcases Bool.or_eq_true_iff.mp this with h0 | hns
  · simp at h0
    omega
  · have hsf : (p.take k).isSuffixOf x = true := sfx_iff.mpr ⟨t, hxt⟩
    rw [hsf] at hns
    simp at hns

theorem noStraddle_of_noRightB {p y : List Char} (h : noRightB p y = true)
    (x : List Char) : NoStraddle p x y := by
  intro k hk1 hk2 ⟨_, ⟨t, hy⟩⟩
  have hk : k ∈ List.range p.length := List.mem_range.mpr hk2
  have := (List.all_eq_true.mp h) k hk
  rcases Bool.or_eq_true_iff.mp this with h0 | hns
  · simp at h0
    omega
  · have hpf : (p.drop k).isPrefixOf y = true := pfx_iff.mpr ⟨t, hy⟩
    rw [hpf] at hns
    simp at hns

theorem occurs_cons_iff {p : List Char} {c : Char} {rest : List Char} :
    Occurs p (c :: rest) ↔ (∃ t, c :: rest = p ++ t) ∨ Occurs p rest := by
  constructor
  · rintro ⟨a, b, h⟩
    cases a with
    | nil => exact Or.inl ⟨b, by simpa using h⟩
    | cons a₀ a' =>
      rw [List.cons_append, List.cons_append] at h
      injection h with h1 h2
      exact Or.inr ⟨a', b, h2⟩
  · rintro (⟨t, h⟩ | ⟨a, b, h⟩)
    · exact ⟨[], t, by simpa using h⟩
    · exact ⟨c :: a, b, by rw [h]; rfl⟩

theorem countOcc_eq_zero_iff {p : List Char} (hp : p ≠ []) (l : List Char) :
    countOcc p l = 0 ↔ ¬ Occurs p l := by
  induction l with
  | nil =>
    rw [countOcc_nil hp]
    constructor
    · rintro - ⟨a, b, h⟩
      have hlen := congrArg List.length h
      simp only [List.length_nil, List.length_append] at hlen
      have hp0 : p.length ≠ 0 := fun h0 => hp (List.length_eq_zero.mp h0)
      omega
    · intro _
      rfl
  | cons c rest ih =>
    show (if p.isPrefixOf (c :: rest) then 1 else 0) + countOcc p rest = 0 ↔ _
    rw [occurs_cons_iff]
    constructor
    · intro h
      have h1 : p.isPrefixOf (c :: rest) = false := by
        by_contra hne
        rw [Bool.not_eq_false] at hne
        rw [if_pos hne] at h
        omega
      have h2 : countOcc p rest = 0 := by
        rw [if_neg (by simp [h1])] at h
        omega
      rintro (⟨t, ht⟩ | ho)
      · rw [Bool.eq_false_iff] at h1
        exact h1 (pfx_iff.mpr ⟨t, ht⟩)
      · exact (ih.mp h2) ho
    · intro h
      have hnp : ¬ p.isPrefixOf (c :: rest) = true := by
        intro hpfx
        obtain ⟨t, ht⟩ := pfx_iff.mp hpfx
        exact h (Or.inl ⟨t, ht⟩)
      rw [if_neg hnp, ih.mpr (fun ho => h (Or.inr ho))]

/-! ### Peel lemmas: computing occurrence counts across template junctions -/

theorem peel_lit {p : List Char} (hp : p ≠ []) {lit : List Char}
    (h0 : countOcc p lit = 0) (hL : noLeftB p lit = true) (rest : List Char) :
    countOcc p (lit ++ rest) = countOcc p rest := by
  rw [countOcc_append hp (noStraddle_of_noLeftB hL rest), h0]
  omega

theorem peel_lit_count {p : List Char} (hp : p ≠ []) {lit : List Char}
    {n : Nat} (h0 : countOcc p lit = n) (hL : noLeftB p lit = true)
    (rest : List Char) :
    countOcc p (lit ++ rest) = n + countOcc p rest := by
  rw [countOcc_append hp (noStraddle_of_noLeftB hL rest), h0]

theorem peel_var_cons {p : List Char} (hp : p ≠ []) {v : List Char}
    (hv : countOcc p v = 0) (d : Char) (hd : d ∉ p) (y : List Char) :
    countOcc p (v ++ d :: y) = countOcc p (d :: y) := by
  rw [countOcc_append hp (noStraddle_of_head hd v y), hv]
  omega

theorem peel_var_endlit {p : List Char} (hp : p ≠ []) {v : List Char}
    (hv : countOcc p v = 0) {y : List Char} (hR : noRightB p y = true) :
    countOcc p (v ++ y) = countOcc p y := by
  rw [countOcc_append hp (noStraddle_of_noRightB hR v), hv]
  omega

theorem countOcc_cons_ne {p : List Char} (hp : p ≠ []) (d : Char)
    (hd : p.head? ≠ some d) (l : List Char) :
    countOcc p (d :: l) = countOcc p l := by
  have hfalse : p.isPrefixOf (d :: l) = false := by
    cases p with
    | nil => exact absurd rfl hp
    | cons q qs =>
      have hqd : (q == d) = false := by
        simp only [List.head?] at hd
        simp only [beq_eq_false_iff_ne, ne_eq]
        intro h
        exact hd (by rw [h])
      show (q == d && qs.isPrefixOf l) = false
      rw [hqd, Bool.false_and]
  show (if p.isPrefixOf (d :: l) then 1 else 0) + countOcc p l = countOcc p l
  rw [hfalse]
  simp

theorem peel_var_lit {p : List Char} (hp : p ≠ []) {v : List Char}
    (hv : countOcc p v = 0) (d : Char) (hd : d ∉ p) (y z : List Char) :
    countOcc p (v ++ ((d :: y) ++ z)) = countOcc p ((d :: y) ++ z) := by
  have hns : NoStraddle p v ((d :: y) ++ z) := noStraddle_of_head hd v (y ++ z)
  rw [countOcc_append hp hns, hv]
  omega

theorem thesisLine_ne_empty (th : String) :
    ¬ ("The article\x27s core argument: \"" ++ th ++ "\"" : String) = "" := by
  intro h
  have hd := congrArg String.data h
  rw [String.data_append, String.data_append] at hd
  have := List.append_eq_nil.mp hd
  exact absurd this.2 (by decide)

/-! ### Occurrence counts of the bridge-template skeleton -/

theorem countOcc_mkBridgeSystem_empty (intro o st tn tail : String)
    (hI0 : countOcc coreArg intro.data = 0)
    (hIL : noLeftB coreArg intro.data = true)
    (hT0 : countOcc coreArg tail.data = 0)
    (hO : countOcc coreArg o.data = 0)
    (hS : countOcc coreArg st.data = 0)
    (hN : countOcc coreArg tn.data = 0) :
    countOcc coreArg (mkBridgeSystem intro o st tn "" tail).data = 0 := by
  have hpne : coreArg ≠ [] := by decide
  unfold mkBridgeSystem
  simp only [String.data_append, List.append_assoc, List.nil_append, reduceIte]
  rw [peel_lit hpne hI0 hIL _]
  rw [peel_lit hpne (by decide) (by decide) _]
  rw [peel_var_lit hpne hO '"' (by decide) _ _]
  rw [peel_lit hpne (by decide) (by decide) _]
  rw [peel_lit hpne (by decide) (by decide) _]
  rw [peel_var_lit hpne hS '\n' (by decide) _ _]
  rw [peel_lit hpne (by decide) (by decide) _]
  rw [peel_var_lit hpne hN '\n' (by decide) _ _]
  rw [peel_lit hpne (by decide) (by decide) _]
  exact hT0

theorem countOcc_mkBridgeSystem_thesis (intro o st tn th tail : String)
    (hth : th ≠ "")
    (hI0 : countOcc coreArg intro.data = 0)
    (hIL : noLeftB coreArg intro.data = true)
    (hT0 : countOcc coreArg tail.data = 0)
    (hO : countOcc coreArg o.data = 0)
    (hS : countOcc coreArg st.data = 0)
    (hN : countOcc coreArg tn.data = 0)
    (hTh : countOcc coreArg th.data = 0) :
    countOcc coreArg (mkBridgeSystem intro o st tn th tail).data = 1 := by
  have hpne : coreArg ≠ [] := by decide
  unfold mkBridgeSystem
  dsimp only
  rw [if_neg hth]
  rw [if_neg (thesisLine_ne_empty th)]
  simp only [String.data_append, List.append_assoc, List.nil_append]
  rw [peel_lit hpne hI0 hIL _]
  rw [peel_lit hpne (by decide) (by decide) _]
  rw [peel_var_lit hpne hO '"' (by decide) _ _]
  rw [peel_lit hpne (by decide) (by decide) _]
  rw [peel_lit hpne (by decide) (by decide) _]
  rw [peel_lit_count hpne
    (by decide : countOcc coreArg
      ("The article\x27s core argument: \"" : String).data = 1) (by decide) _]
  rw [peel_var_lit hpne hTh '"' (by decide) _ _]
  rw [peel_lit hpne (by decide) (by decide) _]
  rw [peel_lit hpne (by decide) (by decide) _]
  rw [peel_var_lit hpne hS '\n' (by decide) _ _]
  rw [peel_lit hpne (by decide) (by decide) _]
  rw [peel_var_lit hpne hN '\n' (by decide) _ _]
  rw [peel_lit hpne (by decide) (by decide) _]
  rw [hT0]

theorem mkBridgeSystem_thesis_placement (intro o st tn th tail : String)
    (hth : th ≠ "") :
    ∃ a b, (mkBridgeSystem intro o st tn th tail).data =
      a ++ (((outlineLine o).data ++
        ('\n' :: '\n' :: ((coreArgLine th).data ++ ['\n']))) ++ b) := by
  refine ⟨intro.data ++ ['\n', '\n'],
    ['S', 't', 'y', 'l', 'e', ':', ' '] ++ (st.data ++
      (("\nTone: " : String).data ++ (tn.data ++
      (("\n\nBefore generating your suggestion, identify which specific part of the outline the writer is currently working on based on their preceding text. Use that section to guide your suggestion — not the outline in general.\n\n" : String).data ++
        tail.data)))), ?_⟩
  unfold mkBridgeSystem outlineLine coreArgLine
  dsimp only
  rw [if_neg hth]
  rw [if_neg (thesisLine_ne_empty th)]
  simp only [String.data_append, List.append_assoc, List.nil_append,
    List.cons_append]

/-! ### C5 — the thesis line of the prompt -/

/-- C5 (amended): for every (stage, position) pair and every session context
whose outline, style, tone and thesis do not themselves contain the
substring `"core argument"` (and any preceding text): with an empty thesis
the system prompt built by `promptBuilder` does not contain the substring
`"core argument"`; with a non-empty thesis it contains the substring
`"core argument"` exactly once, in the single line
`The article's core argument: "<thesis>"`, which is the next line of
content after the outline line (the template separates the two by one blank
line). -/
theorem promptBuilder_thesis_line (stage : Stage) (position : Position)
    (o st tn th pt : String)
    (hO : ¬ Occurs coreArg o.data)
    (hS : ¬ Occurs coreArg st.data)
    (hN : ¬ Occurs coreArg tn.data)
    (hTh : ¬ Occurs coreArg th.data) :
    (th = "" →
      ¬ Occurs coreArg
        ((promptBuilder o st tn th pt stage position).system).data) ∧
    (th ≠ "" →
      countOcc coreArg
        ((promptBuilder o st tn th pt stage position).system).data = 1 ∧
      ∃ a b, ((promptBuilder o st tn th pt stage position).system).data =
        a ++ (((outlineLine o).data ++
          ('\n' :: '\n' :: ((coreArgLine th).data ++ ['\n']))) ++ b)) := by
  have hpne : coreArg ≠ [] := by decide
  have hO' := (countOcc_eq_zero_iff hpne _).mpr hO
  have hS' := (countOcc_eq_zero_iff hpne _).mpr hS
  have hN' := (countOcc_eq_zero_iff hpne _).mpr hN
  have hTh' := (countOcc_eq_zero_iff hpne _).mpr hTh
  cases stage with
  | start =>
    have hTail1 : countOcc coreArg
        (("Suggest the first 5-7 words of an opening sentence that:\n- Hooks the reader immediately\n- Feels natural in a " ++ tn ++ " voice\n- Sets up the premise described in the outline\n\nReturn ONLY the words. No punctuation at the end. No explanation. No preamble.\nIf you cannot generate a helpful suggestion, return an empty string.") : String).data =
        0 := by
      rw [String.data_append, String.data_append, List.append_assoc]
      rw [peel_lit hpne (by decide) (by decide) _]
      rw [peel_var_endlit hpne hN' (by decide)]
      decide
    refine ⟨fun hth => ?_, fun hth => ⟨?_, ?_⟩⟩
    · subst hth
      simp only [promptBuilder, reduceIte]
      exact (countOcc_eq_zero_iff hpne _).mp
        (countOcc_mkBridgeSystem_empty _ _ _ _ _ (by decide) (by decide)
          hTail1 hO' hS' hN')
    · simp only [promptBuilder, reduceIte]
      exact countOcc_mkBridgeSystem_thesis _ _ _ _ _ _ hth (by decide)
        (by decide) hTail1 hO' hS' hN' hTh'
    · simp only [promptBuilder, reduceIte]
      exact mkBridgeSystem_thesis_placement _ _ _ _ _ _ hth
  | establish =>
    refine ⟨fun hth => ?_, fun hth => ⟨?_, ?_⟩⟩
    · subst hth
      simp only [promptBuilder, reduceIte]
      exact (countOcc_eq_zero_iff hpne _).mp
        (countOcc_mkBridgeSystem_empty _ _ _ _ _ (by decide) (by decide)
          (by decide) hO' hS' hN')
    · simp only [promptBuilder, reduceIte]
      exact countOcc_mkBridgeSystem_thesis _ _ _ _ _ _ hth (by decide)
        (by decide) (by decide) hO' hS' hN' hTh'
    · simp only [promptBuilder, reduceIte]
      exact mkBridgeSystem_thesis_placement _ _ _ _ _ _ hth
  | continue_ =>
    cases position with
    | opening =>
      refine ⟨fun hth => ?_, fun hth => ⟨?_, ?_⟩⟩
      · subst hth
        simp only [promptBuilder, reduceIte]
        exact (countOcc_eq_zero_iff hpne _).mp
          (countOcc_mkBridgeSystem_empty _ _ _ _ _ (by decide) (by decide)
            (by decide) hO' hS' hN')
      · simp only [promptBuilder, reduceIte]
        exact countOcc_mkBridgeSystem_thesis _ _ _ _ _ _ hth (by decide)
          (by decide) (by decide) hO' hS' hN' hTh'
      · simp only [promptBuilder, reduceIte]
        exact mkBridgeSystem_thesis_placement _ _ _ _ _ _ hth
    | middle =>
      refine ⟨fun hth => ?_, fun hth => ⟨?_, ?_⟩⟩
      · subst hth
        simp only [promptBuilder, reduceIte]
        exact (countOcc_eq_zero_iff hpne _).mp
          (countOcc_mkBridgeSystem_empty _ _ _ _ _ (by decide) (by decide)
            (by decide) hO' hS' hN')
      · simp only [promptBuilder, reduceIte]
        exact countOcc_mkBridgeSystem_thesis _ _ _ _ _ _ hth (by decide)
          (by decide) (by decide) hO' hS' hN' hTh'
      · simp only [promptBuilder, reduceIte]
        exact mkBridgeSystem_thesis_placement _ _ _ _ _ _ hth
    | closing =>
      refine ⟨fun hth => ?_, fun hth => ⟨?_, ?_⟩⟩
      · subst hth
        simp only [promptBuilder, reduceIte]
        exact (countOcc_eq_zero_iff hpne _).mp
          (countOcc_mkBridgeSystem_empty _ _ _ _ _ (by decide) (by decide)
            (by decide) hO' hS' hN')
      · simp only [promptBuilder, reduceIte]
        exact countOcc_mkBridgeSystem_thesis _ _ _ _ _ _ hth (by decide)
          (by decide) (by decide) hO' hS' hN' hTh'
      · simp only [promptBuilder, reduceIte]
        exact mkBridgeSystem_thesis_placement _ _ _ _ _ _ hth

/-- C5 counterexample: with an outline that itself contains the words
`core argument` and an empty thesis, the system prompt does contain the
substring `"core argument"` — refuting the claim's unrestricted
quantification over session contexts. -/
theorem promptBuilder_pattern_leaks_from_outline :
    Occurs coreArg
      ((promptBuilder "core argument" "s" "t" "" "x" .continue_ .middle).system).data := by
  have hpne : coreArg ≠ [] := by decide
  by_contra h
  have h0 := (countOcc_eq_zero_iff hpne _).mpr h
  exact absurd h0 (by decide)

/-- C5 witness: blank-page start-variant prompt with a benign outline —
no `"core argument"` when the thesis is empty, exactly one when the thesis
is `"X cuts Y by using Z"`. -/
theorem promptBuilder_thesis_line_witness :
    ¬ Occurs coreArg
      ((promptBuilder "How X reduces Y" "clear" "direct" "" "" .start
        .middle).system).data ∧
    countOcc coreArg
      ((promptBuilder "How X reduces Y" "clear" "direct" "X cuts Y by using Z"
        "" .start .middle).system).data = 1 := by
  have hpne : coreArg ≠ [] := by decide
  have d1 : ¬ Occurs coreArg ("How X reduces Y" : String).data :=
    (countOcc_eq_zero_iff hpne _).mp (by decide)
  have d2 : ¬ Occurs coreArg ("clear" : String).data :=
    (countOcc_eq_zero_iff hpne _).mp (by decide)
  have d3 : ¬ Occurs coreArg ("direct" : String).data :=
    (countOcc_eq_zero_iff hpne _).mp (by decide)
  have d4 : ¬ Occurs coreArg ("" : String).data :=
    (countOcc_eq_zero_iff hpne _).mp (by decide)
  have d5 : ¬ Occurs coreArg ("X cuts Y by using Z" : String).data :=
    (countOcc_eq_zero_iff hpne _).mp (by decide)
  exact ⟨(promptBuilder_thesis_line .start .middle "How X reduces Y" "clear"
      "direct" "" "" d1 d2 d3 d4).1 rfl,
    ((promptBuilder_thesis_line .start .middle "How X reduces Y" "clear"
      "direct" "X cuts Y by using Z" "" d1 d2 d3 d5).2 (by decide)).1⟩

end WA
